import Mathlib

/-!
# BusB — shallow embedding of the seat-inventory / booking-lifecycle subsystem

The repository is a React/TypeScript bus-ticket booking platform.  The seat
inventory and booking lifecycle engine described by the design document is
exposed to the frontend only through REST calls; the frontend code embeds the
client-side business rules (24-hour cancellation window, 7-day review window,
schedule validation, mock booking construction, local cancellation update).

This file embeds those source functions directly (times are modelled as
integer epoch milliseconds, exactly the values `Date.getTime()` produces;
JavaScript's real-number divisions are modelled over `ℚ`, which agrees with
the source's IEEE comparisons on all integer-millisecond inputs that matter
for the stated boundaries), and models the server-side engine — which is not
part of the repository's files — from the design document's words.
-/

namespace BusB

/-- `BookingStatus` from `src/types/booking.ts`. -/
inductive BookingStatus where
  | PENDING
  | CONFIRMED
  | COMPLETED
  | CANCELLED
deriving DecidableEq, Repr

/-- Payment methods as the booking form's zod schema enumerates them
(`bookingSchema` in `src/components/forms/BookingForm.tsx`):
`mobile_money`, `card`, `pay_later`. -/
inductive PaymentMethodForm where
  | mobile_money
  | card
  | pay_later
deriving DecidableEq, Repr

/-- `Booking.paymentMethod` values from `src/types/booking.ts`:
`mobile_money`, `credit_card`, `pay_later`. -/
inductive PaymentMethod where
  | mobile_money
  | credit_card
  | pay_later
deriving DecidableEq, Repr

/-- `Booking.paymentStatus` values from `src/types/booking.ts`. -/
inductive PaymentStatus where
  | PAID
  | UNPAID
deriving DecidableEq, Repr

/-- The `route` sub-object of `Booking` in `src/types/booking.ts`. -/
structure RouteRef where
  origin : String
  destination : String
deriving DecidableEq, Repr

/-- The `bus` sub-object of `Booking` in `src/types/booking.ts`. -/
structure BusRef where
  id : String
  name : String
  licensePlate : String
  operatorName : String
deriving DecidableEq, Repr

/-- The `Booking` interface from `src/types/booking.ts`.  `Date` fields are
epoch milliseconds (`Int`); optional fields are `Option`. -/
structure Booking where
  id : String
  bookingNumber : String
  userId : Option String
  passengerName : String
  contactEmail : Option String
  contactPhone : Option String
  scheduleId : String
  route : RouteRef
  bus : BusRef
  departureDate : Int
  departureTime : Int
  arrivalTime : Int
  seatNumbers : List Nat
  totalAmount : Nat
  status : BookingStatus
  paymentMethod : PaymentMethod
  paymentStatus : PaymentStatus
  createdAt : Int
deriving DecidableEq, Repr

/-- `isCancellable` from `src/components/sections/UserTickets.tsx`:

```
const hoursDiff = (departureTime.getTime() - now.getTime()) / (1000 * 60 * 60);
return (
  booking.status !== BookingStatus.CANCELLED &&
  booking.status !== BookingStatus.COMPLETED &&
  hoursDiff > 24
);
```

`now` is the current time in epoch milliseconds. -/
def isCancellable (now : Int) (booking : Booking) : Bool :=
  let hoursDiff : ℚ := ((booking.departureTime - now : Int) : ℚ) / (1000 * 60 * 60)
  decide (booking.status ≠ BookingStatus.CANCELLED) &&
    decide (booking.status ≠ BookingStatus.COMPLETED) &&
    decide ((24 : ℚ) < hoursDiff)

/-- `isReviewable` from `src/components/sections/UserTickets.tsx`:

```
const daysDiff = (now.getTime() - arrivalTime.getTime()) / (1000 * 60 * 60 * 24);
return booking.status === BookingStatus.COMPLETED && daysDiff <= 7;
```
-/
def isReviewable (now : Int) (booking : Booking) : Bool :=
  let daysDiff : ℚ := ((now - booking.arrivalTime : Int) : ℚ) / (1000 * 60 * 60 * 24)
  decide (booking.status = BookingStatus.COMPLETED) && decide (daysDiff ≤ (7 : ℚ))

/-- One hour in milliseconds. -/
def msPerHour : Int := 1000 * 60 * 60

/-- One day in milliseconds. -/
def msPerDay : Int := 1000 * 60 * 60 * 24

/-- A concrete `Booking` used to evaluate the embedded predicates at
boundary inputs; only the status and the two timestamps vary. -/
def sampleBooking (st : BookingStatus) (dep arr : Int) : Booking :=
  { id := "booking-1"
    bookingNumber := "BK123456"
    userId := none
    passengerName := "Passenger"
    contactEmail := none
    contactPhone := none
    scheduleId := "sched-1"
    route := ⟨"Kigali", "Huye"⟩
    bus := ⟨"bus-123", "Express", "RAB123", "Volcano"⟩
    departureDate := dep
    departureTime := dep
    arrivalTime := arr
    seatNumbers := [1]
    totalAmount := 5000
    status := st
    paymentMethod := PaymentMethod.mobile_money
    paymentStatus := PaymentStatus.PAID
    createdAt := 0 }

/-- The props of `BookingForm` in `src/components/forms/BookingForm.tsx`
that the booking computation reads. -/
structure BookingFormProps where
  scheduleId : String
  origin : String
  destination : String
  departureTime : Int
  arrivalTime : Int
  price : Nat
  operatorName : String
  busName : String
  availableSeats : Nat
  passengers : Nat
deriving DecidableEq, Repr

/-- The form data validated by `bookingSchema` in
`src/components/forms/BookingForm.tsx`. -/
structure BookingFormData where
  name : String
  email : String
  phone : String
  agreeToTerms : Bool
  paymentMethod : PaymentMethodForm
deriving DecidableEq, Repr

/-- `totalPrice` in `src/components/forms/BookingForm.tsx`:
`const totalPrice = price * passengers;`. -/
def totalPrice (props : BookingFormProps) : Nat :=
  props.price * props.passengers

/-- `toggleSeatSelection` in `src/components/forms/BookingForm.tsx`: removes
an already selected seat; otherwise appends it only while fewer than
`passengers` seats are selected. -/
def toggleSeatSelection (passengers : Nat) (selectedSeats : List Nat)
    (seatNumber : Nat) : List Nat :=
  if seatNumber ∈ selectedSeats then
    selectedSeats.filter (fun seat => seat ≠ seatNumber)
  else if selectedSeats.length < passengers then
    selectedSeats ++ [seatNumber]
  else
    selectedSeats

/-- The seat lists reachable in the form's `selectedSeats` state: it starts
empty (`useState<number[]>([])`) and is only ever changed by
`toggleSeatSelection`. -/
inductive SeatSelection (passengers : Nat) : List Nat → Prop where
  | nil : SeatSelection passengers []
  | toggle (selectedSeats : List Nat) (seatNumber : Nat) :
      SeatSelection passengers selectedSeats →
      SeatSelection passengers (toggleSeatSelection passengers selectedSeats seatNumber)

/-- `mockBooking` in `onSubmit` of `src/components/forms/BookingForm.tsx`.
`nowMs` is `Date.now()`; `rand6` is the already-floored random number
`Math.floor(100000 + Math.random() * 900000)` (a value in
`[100000, 999999]`); `userId` is `user?.id`. -/
def mockBooking (props : BookingFormProps) (data : BookingFormData)
    (userId : Option String) (selectedSeats : List Nat)
    (nowMs : Nat) (rand6 : Nat) : Booking :=
  { id := "booking-" ++ toString nowMs
    bookingNumber := "BK" ++ toString rand6
    userId := userId
    passengerName := data.name
    contactEmail := some data.email
    contactPhone := some data.phone
    scheduleId := props.scheduleId
    route := { origin := props.origin, destination := props.destination }
    bus := { id := "bus-123", name := props.busName, licensePlate := "RAB123"
             operatorName := props.operatorName }
    departureDate := props.departureTime
    departureTime := props.departureTime
    arrivalTime := props.arrivalTime
    seatNumbers := selectedSeats
    totalAmount := totalPrice props
    status := BookingStatus.CONFIRMED
    paymentMethod :=
      match data.paymentMethod with
      | PaymentMethodForm.mobile_money => PaymentMethod.mobile_money
      | PaymentMethodForm.card => PaymentMethod.credit_card
      | PaymentMethodForm.pay_later => PaymentMethod.pay_later
    paymentStatus :=
      if data.paymentMethod = PaymentMethodForm.pay_later then PaymentStatus.UNPAID
      else PaymentStatus.PAID
    createdAt := nowMs }

/-- The fields of the schedule form validated by `scheduleFormSchema` in
`src/components/dashboard/ScheduleManagement.tsx`.  The two time fields are
the raw strings of the form. -/
structure ScheduleFormInput where
  routeId : String
  busId : String
  departureTime : String
  arrivalTime : String
  price : Int
deriving DecidableEq, Repr

/-- `scheduleFormSchema` in `src/components/dashboard/ScheduleManagement.tsx`:
the zod object checks (non-empty strings, price ≥ 500) followed by the
refinement `new Date(arrivalTime) > new Date(departureTime)`.  `parse`
abstracts JavaScript date parsing: `some t` is a valid date with epoch-ms
value `t`, `none` an invalid date (whose comparison is always false). -/
def scheduleFormValid (parse : String → Option Int) (f : ScheduleFormInput) : Bool :=
  decide (1 ≤ f.routeId.length) &&
    decide (1 ≤ f.busId.length) &&
    decide (1 ≤ f.departureTime.length) &&
    decide (1 ≤ f.arrivalTime.length) &&
    decide (500 ≤ f.price) &&
    (match parse f.departureTime, parse f.arrivalTime with
     | some d, some a => decide (d < a)
     | _, _ => false)

/-- The `setBookings` updater of `cancelBooking` in `src/hooks/useBooking.ts`
(the identical updater appears in `handleCancelBooking` of
`src/pages/UserDashboardPage.tsx`):

```
prevBookings.map((booking) =>
  booking.id === bookingId
    ? { ...booking, status: BookingStatus.CANCELLED }
    : booking)
```
-/
def cancelBookingUpdate (bookingId : String) (bookings : List Booking) : List Booking :=
  bookings.map (fun booking =>
    if booking.id = bookingId then { booking with status := BookingStatus.CANCELLED }
    else booking)

/-!
## The seat inventory / booking lifecycle engine

The repository ships only the React frontend; the REST backend the frontend
calls (`POST /bookings`, `POST /bookings/:id/cancel`, …) is not among the
repository's files — `src/api/README.md` merely describes it.  The
definitions below are therefore modelled from the design document
(§4 Component design, §7 Error taxonomy) rather than read off source code.
Seat sets are `Finset Nat`; one `EngineState` models one `Schedule`'s
occupancy structure together with the bookings that reference it, matching
the per-schedule ownership the design document prescribes.
-/

/-- Modelled from the spec: seat occupancy states (`FREE`, `HELD`, `BOOKED`)
of the Seat Inventory, which is not among the repository's files. -/
inductive SeatState where
  | FREE
  | HELD
  | BOOKED
deriving DecidableEq, Repr

/-- Modelled from the spec: the per-Schedule occupancy structure owned by the
Seat Inventory (seats are indices `1..totalSeats`; a seat is `HELD` or
`BOOKED` when its number is in the corresponding set, `FREE` otherwise). -/
structure Inventory where
  totalSeats : Nat
  held : Finset Nat
  booked : Finset Nat
deriving DecidableEq

/-- Modelled from the spec: the occupancy state of one seat. -/
def seatState (inv : Inventory) (n : Nat) : SeatState :=
  if n ∈ inv.booked then SeatState.BOOKED
  else if n ∈ inv.held then SeatState.HELD
  else SeatState.FREE

/-- Modelled from the spec: the result record of `snapshotAvailability`. -/
structure Availability where
  freeSeats : Finset Nat
  heldSeats : Finset Nat
  bookedSeats : Finset Nat
deriving DecidableEq

/-- Modelled from the spec: `snapshotAvailability(scheduleId)`, the read-only
occupancy view over the seats `1..totalSeats`. -/
def snapshotAvailability (inv : Inventory) : Availability :=
  { freeSeats := (Finset.Icc 1 inv.totalSeats).filter (fun n => seatState inv n = SeatState.FREE)
    heldSeats := (Finset.Icc 1 inv.totalSeats).filter (fun n => seatState inv n = SeatState.HELD)
    bookedSeats := (Finset.Icc 1 inv.totalSeats).filter (fun n => seatState inv n = SeatState.BOOKED) }

/-- Modelled from the spec: the requested seats that are not currently
`FREE` — the conflicting-seat list `tryHold` reports on rejection. -/
def conflictingSeats (inv : Inventory) (req : Finset Nat) : Finset Nat :=
  req.filter (fun n => seatState inv n ≠ SeatState.FREE)

/-- Modelled from the spec: the outcome of `tryHold`. -/
inductive HoldResult where
  | granted
  | rejected (conflicting : Finset Nat)
deriving DecidableEq

/-- Modelled from the spec: `tryHold(scheduleId, seatNumbers)` — atomically
transitions every requested seat `FREE → HELD` only if all are `FREE`;
otherwise no seat changes state and the unavailable seats are reported. -/
def tryHold (inv : Inventory) (req : Finset Nat) : Inventory × HoldResult :=
  if conflictingSeats inv req = ∅ then
    ({ inv with held := inv.held ∪ req }, HoldResult.granted)
  else
    (inv, HoldResult.rejected (conflictingSeats inv req))

/-- Modelled from the spec: `commit(scheduleId, seatNumbers)` — transitions
`HELD → BOOKED`; `none` models the `InvalidSeatState` failure when some
requested seat is not `HELD`. -/
def commit (inv : Inventory) (req : Finset Nat) : Option Inventory :=
  if req ⊆ inv.held then
    some { inv with held := inv.held \ req, booked := inv.booked ∪ req }
  else
    none

/-- Modelled from the spec: `release(scheduleId, seatNumbers)` — transitions
`HELD → FREE` or `BOOKED → FREE`; idempotent. -/
def seatRelease (inv : Inventory) (req : Finset Nat) : Inventory :=
  { inv with held := inv.held \ req, booked := inv.booked \ req }

/-- Modelled from the spec: the error taxonomy of §7 that the orchestrator's
operations surface. -/
inductive BookingError where
  | ScheduleNotActive
  | SeatsUnavailable (conflicting : Finset Nat)
  | PaymentFailed
  | CancellationWindowClosed
  | InvalidTransition
  | BookingNotFound
  | InvalidSeatRequest
deriving DecidableEq

/-- Modelled from the spec: the payment capability's synchronous result,
`charge(amount, method, payerDetails) → Paid | Declined`. -/
inductive PayOutcome where
  | Paid
  | Declined
deriving DecidableEq, Repr

/-- Modelled from the spec: the Booking record as the Lifecycle State Machine
owns it (identifier, seat set, status, payment status). -/
structure EngineBooking where
  id : Nat
  seats : Finset Nat
  status : BookingStatus
  paymentStatus : PaymentStatus
deriving DecidableEq

/-- Modelled from the spec: the engine's state for one Schedule — its
occupancy structure, the schedule's departure and arrival timestamps
(epoch ms), the bookings referencing it, and the next fresh booking id. -/
structure EngineState where
  inv : Inventory
  departure : Int
  arrival : Int
  bookings : List EngineBooking
  nextId : Nat
deriving DecidableEq

/-- Modelled from the spec: the Reservation Ledger's request validation —
`seatNumbers` non-empty and all within `[1, totalSeats]` (deduplication is
implicit in the `Finset` representation). -/
def validSeatRequest (inv : Inventory) (req : Finset Nat) : Bool :=
  decide (req ≠ ∅) && decide (req ⊆ Finset.Icc 1 inv.totalSeats)

/-- Modelled from the spec: update every booking whose id matches. -/
def updateBooking (bid : Nat) (g : EngineBooking → EngineBooking)
    (l : List EngineBooking) : List EngineBooking :=
  l.map (fun x => if x.id = bid then g x else x)

/-- Modelled from the spec: `reserve(scheduleId, seatNumbers, requester)` of
the Reservation Ledger followed by the Reservation-granted transition of the
Lifecycle State Machine: validate the request, `tryHold`, and on grant create
the Booking in `PENDING` (seats already `HELD`); on rejection report the
conflicting seats as the retryable `SeatsUnavailable` and change nothing. -/
def reserve (s : EngineState) (req : Finset Nat) :
    EngineState × Except BookingError EngineBooking :=
  if validSeatRequest s.inv req then
    match tryHold s.inv req with
    | (inv2, HoldResult.granted) =>
        let b : EngineBooking :=
          { id := s.nextId, seats := req, status := BookingStatus.PENDING
            paymentStatus := PaymentStatus.UNPAID }
        ({ s with inv := inv2, bookings := b :: s.bookings, nextId := s.nextId + 1 },
         Except.ok b)
    | (_, HoldResult.rejected conf) =>
        (s, Except.error (BookingError.SeatsUnavailable conf))
  else
    (s, Except.error BookingError.InvalidSeatRequest)

/-- Modelled from the spec: the `PENDING → CONFIRMED` transition (payment
confirmed, payment status `PAID`; or pay-later accepted, payment status
stays `UNPAID`), with the Seat Inventory `commit` side effect. -/
def confirmBooking (s : EngineState) (bid : Nat) (ps : PaymentStatus) :
    EngineState × Except BookingError EngineBooking :=
  match s.bookings.find? (fun b => b.id == bid) with
  | none => (s, Except.error BookingError.BookingNotFound)
  | some b =>
      if b.status = BookingStatus.PENDING then
        match commit s.inv b.seats with
        | some inv2 =>
            ({ s with
                inv := inv2
                bookings := updateBooking bid
                  (fun x => { x with status := BookingStatus.CONFIRMED, paymentStatus := ps })
                  s.bookings },
             Except.ok { b with status := BookingStatus.CONFIRMED, paymentStatus := ps })
        | none => (s, Except.error BookingError.InvalidTransition)
      else
        (s, Except.error BookingError.InvalidTransition)

/-- Modelled from the spec: the `PENDING → CANCELLED` transition when the
hold window elapses without payment, with the `release` side effect. -/
def expireHold (s : EngineState) (bid : Nat) :
    EngineState × Except BookingError Unit :=
  match s.bookings.find? (fun b => b.id == bid) with
  | none => (s, Except.error BookingError.BookingNotFound)
  | some b =>
      if b.status = BookingStatus.PENDING then
        ({ s with
            inv := seatRelease s.inv b.seats
            bookings := updateBooking bid
              (fun x => { x with status := BookingStatus.CANCELLED }) s.bookings },
         Except.ok ())
      else
        (s, Except.error BookingError.InvalidTransition)

/-- Modelled from the spec: `cancelBooking(bookingId, requester)` — applies
the cancellation transitions of the state-machine table: an operator
force-cancels a `PENDING` or `CONFIRMED` Booking unconditionally; a
passenger cancels a `CONFIRMED` Booking only while `departure − now > 24h`,
otherwise the request fails with `CancellationWindowClosed` and nothing
changes; terminal states fail with `InvalidTransition`. -/
def cancelBooking (s : EngineState) (bid : Nat) (now : Int) (byOperator : Bool) :
    EngineState × Except BookingError Unit :=
  match s.bookings.find? (fun b => b.id == bid) with
  | none => (s, Except.error BookingError.BookingNotFound)
  | some b =>
      match b.status with
      | BookingStatus.PENDING =>
          if byOperator then
            ({ s with
                inv := seatRelease s.inv b.seats
                bookings := updateBooking bid
                  (fun x => { x with status := BookingStatus.CANCELLED }) s.bookings },
             Except.ok ())
          else
            (s, Except.error BookingError.InvalidTransition)
      | BookingStatus.CONFIRMED =>
          if byOperator ∨ 24 * msPerHour < s.departure - now then
            ({ s with
                inv := seatRelease s.inv b.seats
                bookings := updateBooking bid
                  (fun x => { x with status := BookingStatus.CANCELLED }) s.bookings },
             Except.ok ())
          else
            (s, Except.error BookingError.CancellationWindowClosed)
      | _ => (s, Except.error BookingError.InvalidTransition)

/-- Modelled from the spec: the `CONFIRMED → COMPLETED` transition once
`now > arrival`; no side effect on the inventory. -/
def completeBooking (s : EngineState) (bid : Nat) (now : Int) :
    EngineState × Except BookingError Unit :=
  match s.bookings.find? (fun b => b.id == bid) with
  | none => (s, Except.error BookingError.BookingNotFound)
  | some b =>
      if b.status = BookingStatus.CONFIRMED ∧ s.arrival < now then
        ({ s with
            bookings := updateBooking bid
              (fun x => { x with status := BookingStatus.COMPLETED }) s.bookings },
         Except.ok ())
      else
        (s, Except.error BookingError.InvalidTransition)

/-- Modelled from the spec: the orchestrator's
`createBooking(scheduleId, seatNumbers, passenger, paymentMethod)` — checks
the schedule is `ACTIVE`, reserves, and immediately drives the
payment-method-specific transition: pay-later confirms with payment status
`UNPAID`; mobile money and card charge the payment capability and confirm
with `PAID` on `Paid`, while on `Declined` the hold is released and
`PaymentFailed` is returned with no Booking left behind. -/
def createBooking (s : EngineState) (scheduleActive : Bool) (req : Finset Nat)
    (method : PaymentMethodForm) (charge : PayOutcome) :
    EngineState × Except BookingError EngineBooking :=
  if scheduleActive = false then
    (s, Except.error BookingError.ScheduleNotActive)
  else
    match reserve s req with
    | (s1, Except.error e) => (s1, Except.error e)
    | (s1, Except.ok b) =>
        match method with
        | PaymentMethodForm.pay_later => confirmBooking s1 b.id PaymentStatus.UNPAID
        | _ =>
            match charge with
            | PayOutcome.Paid => confirmBooking s1 b.id PaymentStatus.PAID
            | PayOutcome.Declined =>
                ({ s1 with
                    inv := seatRelease s1.inv b.seats
                    bookings := s.bookings
                    nextId := s.nextId },
                 Except.error BookingError.PaymentFailed)

/-- Modelled from the spec: the engine's initial state for a fresh Schedule —
every seat `FREE`, no bookings. -/
def initState (totalSeats : Nat) (departure arrival : Int) : EngineState :=
  { inv := { totalSeats := totalSeats, held := ∅, booked := ∅ }
    departure := departure, arrival := arrival, bookings := [], nextId := 0 }

/-- Modelled from the spec: one engine transition — any orchestrator or
state-machine operation applied with arbitrary arguments. -/
inductive Step : EngineState → EngineState → Prop where
  | reserveStep {s : EngineState} (req : Finset Nat) : Step s (reserve s req).1
  | confirmStep {s : EngineState} (bid : Nat) (ps : PaymentStatus) :
      Step s (confirmBooking s bid ps).1
  | expireStep {s : EngineState} (bid : Nat) : Step s (expireHold s bid).1
  | cancelStep {s : EngineState} (bid : Nat) (now : Int) (byOperator : Bool) :
      Step s (cancelBooking s bid now byOperator).1
  | completeStep {s : EngineState} (bid : Nat) (now : Int) :
      Step s (completeBooking s bid now).1
  | createStep {s : EngineState} (scheduleActive : Bool) (req : Finset Nat)
      (method : PaymentMethodForm) (charge : PayOutcome) :
      Step s (createBooking s scheduleActive req method charge).1

/-- Modelled from the spec: the states the engine can reach from a fresh
Schedule by any sequence of operations. -/
inductive Reachable : EngineState → Prop where
  | init (totalSeats : Nat) (departure arrival : Int) :
      Reachable (initState totalSeats departure arrival)
  | step {s t : EngineState} : Reachable s → Step s t → Reachable t

/-- The engine's inductive invariant: held and booked seats are disjoint,
`PENDING` bookings hold their seats, `CONFIRMED`/`COMPLETED` bookings own
booked seats, non-cancelled bookings are pairwise seat-disjoint, and booking
ids are unique and below the fresh-id counter. -/
structure SeatInv (s : EngineState) : Prop where
  hb_disj : Disjoint s.inv.held s.inv.booked
  pending_held : ∀ b ∈ s.bookings, b.status = BookingStatus.PENDING → b.seats ⊆ s.inv.held
  confirmed_booked : ∀ b ∈ s.bookings,
    b.status = BookingStatus.CONFIRMED ∨ b.status = BookingStatus.COMPLETED →
    b.seats ⊆ s.inv.booked
  pairwise_disjoint : s.bookings.Pairwise
    (fun a c => a.status ≠ BookingStatus.CANCELLED → c.status ≠ BookingStatus.CANCELLED →
      Disjoint a.seats c.seats)
  ids_nodup : s.bookings.Pairwise (fun a c => a.id ≠ c.id)
  id_lt_next : ∀ b ∈ s.bookings, b.id < s.nextId

/-- Concrete `BookingForm` props used to evaluate the booking computation
at concrete inputs. -/
def demoProps : BookingFormProps :=
  { scheduleId := "sched-1"
    origin := "Kigali"
    destination := "Huye"
    departureTime := 0
    arrivalTime := 0
    price := 5000
    operatorName := "Volcano"
    busName := "Express"
    availableSeats := 30
    passengers := 2 }

/-- Concrete validated form data with a chosen payment method. -/
def demoFormData (pm : PaymentMethodForm) : BookingFormData :=
  { name := "Jane Doe"
    email := "jane@example.com"
    phone := "0781234567"
    agreeToTerms := true
    paymentMethod := pm }

/-- A concrete engine state with one `CONFIRMED` booking on seats `{1, 2}`
of a 4-seat schedule departing at `30 * msPerHour`; used to evaluate the
engine operations at boundary inputs. -/
def demoConfirmedState : EngineState :=
  { inv := { totalSeats := 4, held := ∅, booked := {1, 2} }
    departure := 30 * msPerHour
    arrival := 40 * msPerHour
    bookings := [{ id := 0, seats := {1, 2}, status := BookingStatus.CONFIRMED
                   paymentStatus := PaymentStatus.PAID }]
    nextId := 1 }

theorem isCancellable_confirmed_iff (now : Int) (b : Booking)
    (hb : b.status = BookingStatus.CONFIRMED) :
    isCancellable now b = true ↔ 24 * msPerHour < b.departureTime - now := by
  unfold isCancellable msPerHour
  rw [hb]
  simp only [Bool.and_eq_true, decide_eq_true_eq]
  rw [lt_div_iff₀ (by norm_num : (0 : ℚ) < 1000 * 60 * 60)]
  constructor
  · rintro ⟨-, h⟩
    exact_mod_cast h
  · intro h
    exact ⟨⟨by simp, by simp⟩, by exact_mod_cast h⟩

/-- C4: For every Booking, the review-eligibility predicate `isReviewable`
holds exactly when the booking's status is `COMPLETED` and `now − arrival`
is at most 7 days; a booking whose trip arrived exactly 7 days ago is
eligible, one that arrived 7 days and 1 second ago is not. -/
theorem review_eligibility_seven_day_boundary :
    (∀ (now : Int) (b : Booking),
      isReviewable now b = true ↔
        (b.status = BookingStatus.COMPLETED ∧ now - b.arrivalTime ≤ 7 * msPerDay)) ∧
    isReviewable (7 * msPerDay) (sampleBooking BookingStatus.COMPLETED 0 0) = true ∧
    isReviewable (7 * msPerDay + 1000) (sampleBooking BookingStatus.COMPLETED 0 0) = false := by
  have key : ∀ (now : Int) (b : Booking),
      isReviewable now b = true ↔
        (b.status = BookingStatus.COMPLETED ∧ now - b.arrivalTime ≤ 7 * msPerDay) := by
    intro now b
    unfold isReviewable msPerDay
    simp only [Bool.and_eq_true, decide_eq_true_eq]
    rw [div_le_iff₀ (by norm_num : (0 : ℚ) < 1000 * 60 * 60 * 24)]
    constructor
    · rintro ⟨hst, h⟩
      refine ⟨hst, ?_⟩
      have h2 : ((now - b.arrivalTime : Int) : ℚ) ≤ ((7 * (1000 * 60 * 60 * 24) : Int) : ℚ) := by
        push_cast at h ⊢
        linarith
      exact_mod_cast h2
    · rintro ⟨hst, h⟩
      refine ⟨hst, ?_⟩
      have h2 : ((now - b.arrivalTime : Int) : ℚ) ≤ ((7 * (1000 * 60 * 60 * 24) : Int) : ℚ) := by
        exact_mod_cast h
      push_cast at h2 ⊢
      linarith
  refine ⟨key, ?_, ?_⟩
  · rw [key]
    exact ⟨rfl, by norm_num [sampleBooking, msPerDay]⟩
  · rw [Bool.eq_false_iff, Ne, key]
    rintro ⟨-, h⟩
    norm_num [sampleBooking, msPerDay] at h

/-! ### Seat Inventory toolbox -/

theorem seatState_eq_FREE {inv : Inventory} {n : Nat} :
    seatState inv n = SeatState.FREE ↔ n ∉ inv.booked ∧ n ∉ inv.held := by
  unfold seatState
  split_ifs with h1 h2 <;> simp_all

theorem conflictingSeats_eq_empty {inv : Inventory} {req : Finset Nat} :
    conflictingSeats inv req = ∅ ↔ ∀ n ∈ req, seatState inv n = SeatState.FREE := by
  unfold conflictingSeats
  rw [Finset.filter_eq_empty_iff]
  simp

theorem tryHold_of_all_free {inv : Inventory} {req : Finset Nat}
    (h : ∀ n ∈ req, seatState inv n = SeatState.FREE) :
    tryHold inv req = ({ inv with held := inv.held ∪ req }, HoldResult.granted) := by
  unfold tryHold
  rw [if_pos (conflictingSeats_eq_empty.mpr h)]

theorem tryHold_of_conflict {inv : Inventory} {req : Finset Nat}
    (h : conflictingSeats inv req ≠ ∅) :
    tryHold inv req = (inv, HoldResult.rejected (conflictingSeats inv req)) := by
  unfold tryHold
  rw [if_neg h]

theorem tryHold_granted_iff {inv : Inventory} {req : Finset Nat} :
    (tryHold inv req).2 = HoldResult.granted ↔ ∀ n ∈ req, seatState inv n = SeatState.FREE := by
  constructor
  · intro h
    by_contra hc
    rw [tryHold_of_conflict (fun he => hc (conflictingSeats_eq_empty.mp he))] at h
    exact HoldResult.noConfusion h
  · intro h
    rw [tryHold_of_all_free h]

theorem disjoint_held_of_all_free {inv : Inventory} {req : Finset Nat}
    (h : ∀ n ∈ req, seatState inv n = SeatState.FREE) : Disjoint req inv.held := by
  rw [Finset.disjoint_left]
  intro n hn hmem
  exact ((seatState_eq_FREE.mp (h n hn)).2 hmem)

theorem disjoint_booked_of_all_free {inv : Inventory} {req : Finset Nat}
    (h : ∀ n ∈ req, seatState inv n = SeatState.FREE) : Disjoint req inv.booked := by
  rw [Finset.disjoint_left]
  intro n hn hmem
  exact ((seatState_eq_FREE.mp (h n hn)).1 hmem)

theorem commit_of_subset {inv : Inventory} {req : Finset Nat} (h : req ⊆ inv.held) :
    commit inv req = some { inv with held := inv.held \ req, booked := inv.booked ∪ req } := by
  unfold commit
  rw [if_pos h]

theorem commit_eq_some {inv inv2 : Inventory} {req : Finset Nat}
    (h : commit inv req = some inv2) :
    req ⊆ inv.held ∧ inv2 = { inv with held := inv.held \ req, booked := inv.booked ∪ req } := by
  unfold commit at h
  split_ifs at h with hs
  exact ⟨hs, (Option.some_inj.mp h).symm⟩

/-! ### Booking-list toolbox -/

theorem eq_of_mem_of_id_eq {l : List EngineBooking}
    (hnd : l.Pairwise (fun a c => a.id ≠ c.id)) :
    ∀ {x y : EngineBooking}, x ∈ l → y ∈ l → x.id = y.id → x = y := by
  induction l with
  | nil => intro x y hx _ _; cases hx
  | cons h t ih =>
      intro x y hx hy hid
      rcases List.mem_cons.mp hx with rfl | hx₁ <;> rcases List.mem_cons.mp hy with rfl | hy₁
      · rfl
      · exact absurd hid ((List.pairwise_cons.mp hnd).1 _ hy₁)
      · exact absurd hid.symm ((List.pairwise_cons.mp hnd).1 _ hx₁)
      · exact ih (List.pairwise_cons.mp hnd).2 hx₁ hy₁ hid

theorem find?_booking_eq_some {l : List EngineBooking} {bid : Nat} {b : EngineBooking}
    (h : l.find? (fun x => x.id == bid) = some b) : b ∈ l ∧ b.id = bid := by
  refine ⟨List.mem_of_find?_eq_some h, ?_⟩
  have := List.find?_some h
  simpa using this

theorem pairwise_seatDisjoint_forall {l : List EngineBooking}
    (hp : l.Pairwise (fun a c => a.status ≠ BookingStatus.CANCELLED →
      c.status ≠ BookingStatus.CANCELLED → Disjoint a.seats c.seats))
    {x y : EngineBooking} (hx : x ∈ l) (hy : y ∈ l) (hne : x ≠ y)
    (hxs : x.status ≠ BookingStatus.CANCELLED) (hys : y.status ≠ BookingStatus.CANCELLED) :
    Disjoint x.seats y.seats := by
  have hsymm : Symmetric (fun a c : EngineBooking =>
      a.status ≠ BookingStatus.CANCELLED → c.status ≠ BookingStatus.CANCELLED →
      Disjoint a.seats c.seats) := by
    intro a c hac hc ha
    exact (hac ha hc).symm
  exact hp.forall hsymm hx hy hne hxs hys

theorem updateBooking_mem {bid : Nat} {g : EngineBooking → EngineBooking}
    {l : List EngineBooking} {x2 : EngineBooking} (h : x2 ∈ updateBooking bid g l) :
    ∃ x ∈ l, x2 = if x.id = bid then g x else x := by
  unfold updateBooking at h
  obtain ⟨x, hx, he⟩ := List.mem_map.mp h
  exact ⟨x, hx, he.symm⟩

theorem updateBooking_pairwise {R S : EngineBooking → EngineBooking → Prop}
    {bid : Nat} {g : EngineBooking → EngineBooking} {l : List EngineBooking}
    (hp : l.Pairwise R)
    (H : ∀ x ∈ l, ∀ y ∈ l, R x y →
      S (if x.id = bid then g x else x) (if y.id = bid then g y else y)) :
    (updateBooking bid g l).Pairwise S := by
  unfold updateBooking
  rw [List.pairwise_map]
  exact List.Pairwise.imp_of_mem (fun hx hy hr => H _ hx _ hy hr) hp

/-! ### Reservation Ledger equations -/

theorem reserve_of_valid_free {s : EngineState} {req : Finset Nat}
    (hv : validSeatRequest s.inv req = true)
    (hfree : ∀ n ∈ req, seatState s.inv n = SeatState.FREE) :
    reserve s req =
      ({ s with
          inv := { s.inv with held := s.inv.held ∪ req }
          bookings :=
            { id := s.nextId, seats := req, status := BookingStatus.PENDING
              paymentStatus := PaymentStatus.UNPAID } :: s.bookings
          nextId := s.nextId + 1 },
       Except.ok
         { id := s.nextId, seats := req, status := BookingStatus.PENDING
           paymentStatus := PaymentStatus.UNPAID }) := by
  unfold reserve
  rw [if_pos hv, tryHold_of_all_free hfree]

theorem reserve_of_not_valid {s : EngineState} {req : Finset Nat}
    (hv : ¬ validSeatRequest s.inv req = true) :
    reserve s req = (s, Except.error BookingError.InvalidSeatRequest) := by
  unfold reserve
  rw [if_neg hv]

theorem reserve_of_conflict {s : EngineState} {req : Finset Nat}
    (hv : validSeatRequest s.inv req = true)
    (hc : conflictingSeats s.inv req ≠ ∅) :
    reserve s req =
      (s, Except.error (BookingError.SeatsUnavailable (conflictingSeats s.inv req))) := by
  unfold reserve
  rw [if_pos hv, tryHold_of_conflict hc]

theorem reserve_ok_inv {s s1 : EngineState} {req : Finset Nat} {b : EngineBooking}
    (h : reserve s req = (s1, Except.ok b)) :
    validSeatRequest s.inv req = true ∧
    (∀ n ∈ req, seatState s.inv n = SeatState.FREE) ∧
    b = { id := s.nextId, seats := req, status := BookingStatus.PENDING
          paymentStatus := PaymentStatus.UNPAID } ∧
    s1 = { s with
            inv := { s.inv with held := s.inv.held ∪ req }
            bookings := b :: s.bookings
            nextId := s.nextId + 1 } := by
  by_cases hv : validSeatRequest s.inv req = true
  · by_cases hfree : ∀ n ∈ req, seatState s.inv n = SeatState.FREE
    · rw [reserve_of_valid_free hv hfree] at h
      obtain ⟨h1, h2⟩ := Prod.mk.injEq _ _ _ _ ▸ h
      obtain rfl := Except.ok.inj h2
      exact ⟨hv, hfree, rfl, h1.symm⟩
    · rw [reserve_of_conflict hv
        (fun he => hfree (conflictingSeats_eq_empty.mp he))] at h
      exact absurd (congrArg Prod.snd h) (by simp)
  · rw [reserve_of_not_valid hv] at h
    exact absurd (congrArg Prod.snd h) (by simp)

/-! ### Invariant preservation -/

theorem nonCancelled_seats_subset {s : EngineState} (hi : SeatInv s)
    {c : EngineBooking} (hc : c ∈ s.bookings) (hcs : c.status ≠ BookingStatus.CANCELLED) :
    c.seats ⊆ s.inv.held ∪ s.inv.booked := by
  cases hstc : c.status with
  | PENDING => exact (hi.pending_held c hc hstc).trans Finset.subset_union_left
  | CONFIRMED => exact (hi.confirmed_booked c hc (Or.inl hstc)).trans Finset.subset_union_right
  | COMPLETED => exact (hi.confirmed_booked c hc (Or.inr hstc)).trans Finset.subset_union_right
  | CANCELLED => exact absurd hstc hcs

theorem seatInv_reserve {s : EngineState} (hi : SeatInv s) (req : Finset Nat) :
    SeatInv (reserve s req).1 := by
  by_cases hv : validSeatRequest s.inv req = true
  · by_cases hfree : ∀ n ∈ req, seatState s.inv n = SeatState.FREE
    · rw [reserve_of_valid_free hv hfree]
      refine ⟨?_, ?_, ?_, ?_, ?_, ?_⟩ <;> dsimp only
      · exact Finset.disjoint_union_left.mpr ⟨hi.hb_disj, disjoint_booked_of_all_free hfree⟩
      · intro b hb hst
        rcases List.mem_cons.mp hb with rfl | hb₁
        · exact Finset.subset_union_right
        · exact (hi.pending_held b hb₁ hst).trans Finset.subset_union_left
      · intro b hb hst
        rcases List.mem_cons.mp hb with rfl | hb₁
        · rcases hst with h | h <;> exact BookingStatus.noConfusion h
        · exact hi.confirmed_booked b hb₁ hst
      · refine List.pairwise_cons.mpr ⟨?_, hi.pairwise_disjoint⟩
        intro c hc _ hcs
        have hsub := nonCancelled_seats_subset hi hc hcs
        have hdisj : Disjoint req (s.inv.held ∪ s.inv.booked) :=
          Finset.disjoint_union_right.mpr
            ⟨disjoint_held_of_all_free hfree, disjoint_booked_of_all_free hfree⟩
        exact Finset.disjoint_of_subset_right hsub hdisj
      · refine List.pairwise_cons.mpr ⟨?_, hi.ids_nodup⟩
        intro c hc
        exact (hi.id_lt_next c hc).ne'
      · intro b hb
        rcases List.mem_cons.mp hb with rfl | hb₁
        · exact Nat.lt_succ_self _
        · exact (hi.id_lt_next b hb₁).trans (Nat.lt_succ_self _)
    · rw [reserve_of_conflict hv
        (fun he => hfree (conflictingSeats_eq_empty.mp he))]
      exact hi
  · rw [reserve_of_not_valid hv]
    exact hi

theorem confirmBooking_of_found {s : EngineState} {b : EngineBooking} {bid : Nat}
    {ps : PaymentStatus} (hf : s.bookings.find? (fun x => x.id == bid) = some b)
    (hpend : b.status = BookingStatus.PENDING) (hsub : b.seats ⊆ s.inv.held) :
    confirmBooking s bid ps =
      ({ s with
          inv := { s.inv with
            held := s.inv.held \ b.seats, booked := s.inv.booked ∪ b.seats }
          bookings := updateBooking bid
            (fun x => { x with status := BookingStatus.CONFIRMED, paymentStatus := ps })
            s.bookings },
       Except.ok { b with status := BookingStatus.CONFIRMED, paymentStatus := ps }) := by
  unfold confirmBooking
  rw [hf]
  dsimp only
  rw [if_pos hpend, commit_of_subset hsub]

theorem seatInv_confirm {s : EngineState} (hi : SeatInv s) (bid : Nat) (ps : PaymentStatus) :
    SeatInv (confirmBooking s bid ps).1 := by
  rcases hf : s.bookings.find? (fun x => x.id == bid) with _ | b
  · unfold confirmBooking
    rw [hf]
    exact hi
  · obtain ⟨hmem, hbid⟩ := find?_booking_eq_some hf
    by_cases hpend : b.status = BookingStatus.PENDING
    · have hsub : b.seats ⊆ s.inv.held := hi.pending_held b hmem hpend
      rw [confirmBooking_of_found hf hpend hsub]
      refine ⟨?_, ?_, ?_, ?_, ?_, ?_⟩ <;> dsimp only
      · refine Finset.disjoint_union_right.mpr ⟨?_, Finset.sdiff_disjoint⟩
        exact Finset.disjoint_of_subset_left Finset.sdiff_subset hi.hb_disj
      · intro x2 hx2 hst
        obtain ⟨x, hx, hcase⟩ := updateBooking_mem hx2
        by_cases hxid : x.id = bid
        · rw [if_pos hxid] at hcase
          rw [hcase] at hst
          simp at hst
        · rw [if_neg hxid] at hcase
          subst hcase
          have hxb : x2 ≠ b := fun he => hxid (he ▸ hbid)
          have hd : Disjoint x2.seats b.seats :=
            pairwise_seatDisjoint_forall hi.pairwise_disjoint hx hmem hxb
              (by rw [hst]; simp) (by rw [hpend]; simp)
          exact Finset.subset_sdiff.mpr ⟨hi.pending_held x2 hx hst, hd⟩
      · intro x2 hx2 hst
        obtain ⟨x, hx, hcase⟩ := updateBooking_mem hx2
        by_cases hxid : x.id = bid
        · rw [if_pos hxid] at hcase
          have hxb : x = b := eq_of_mem_of_id_eq hi.ids_nodup hx hmem (hxid.trans hbid.symm)
          rw [hcase, hxb]
          exact Finset.subset_union_right
        · rw [if_neg hxid] at hcase
          subst hcase
          exact (hi.confirmed_booked x2 hx hst).trans Finset.subset_union_left
      · refine updateBooking_pairwise hi.pairwise_disjoint ?_
        intro x hx y hy hr hx2 hy2
        have hxnc : x.status ≠ BookingStatus.CANCELLED := by
          by_cases hxid : x.id = bid
          · have hxb : x = b := eq_of_mem_of_id_eq hi.ids_nodup hx hmem (hxid.trans hbid.symm)
            rw [hxb, hpend]
            simp
          · rw [if_neg hxid] at hx2
            exact hx2
        have hync : y.status ≠ BookingStatus.CANCELLED := by
          by_cases hyid : y.id = bid
          · have hyb : y = b := eq_of_mem_of_id_eq hi.ids_nodup hy hmem (hyid.trans hbid.symm)
            rw [hyb, hpend]
            simp
          · rw [if_neg hyid] at hy2
            exact hy2
        have hd := hr hxnc hync
        split_ifs <;> exact hd
      · refine updateBooking_pairwise hi.ids_nodup ?_
        intro x hx y hy hr
        split_ifs <;> exact hr
      · intro x2 hx2
        obtain ⟨x, hx, hcase⟩ := updateBooking_mem hx2
        have hid2 : x2.id = x.id := by
          split_ifs at hcase <;> rw [hcase]
        rw [hid2]
        exact hi.id_lt_next x hx
    · unfold confirmBooking
      rw [hf]
      dsimp only
      rw [if_neg hpend]
      exact hi

theorem seatInv_cancelCore {s : EngineState} (hi : SeatInv s) {b : EngineBooking} {bid : Nat}
    (hmem : b ∈ s.bookings) (hbid : b.id = bid)
    (hbnc : b.status ≠ BookingStatus.CANCELLED) :
    SeatInv { s with
        inv := seatRelease s.inv b.seats
        bookings := updateBooking bid
          (fun x => { x with status := BookingStatus.CANCELLED }) s.bookings } := by
  refine ⟨?_, ?_, ?_, ?_, ?_, ?_⟩ <;> dsimp only [seatRelease]
  · exact Finset.disjoint_of_subset_left Finset.sdiff_subset
      (Finset.disjoint_of_subset_right Finset.sdiff_subset hi.hb_disj)
  · intro x2 hx2 hst
    obtain ⟨x, hx, hcase⟩ := updateBooking_mem hx2
    by_cases hxid : x.id = bid
    · rw [if_pos hxid] at hcase
      rw [hcase] at hst
      simp at hst
    · rw [if_neg hxid] at hcase
      subst hcase
      have hxb : x2 ≠ b := fun he => hxid (he ▸ hbid)
      have hd : Disjoint x2.seats b.seats :=
        pairwise_seatDisjoint_forall hi.pairwise_disjoint hx hmem hxb
          (by rw [hst]; simp) hbnc
      exact Finset.subset_sdiff.mpr ⟨hi.pending_held x2 hx hst, hd⟩
  · intro x2 hx2 hst
    obtain ⟨x, hx, hcase⟩ := updateBooking_mem hx2
    by_cases hxid : x.id = bid
    · rw [if_pos hxid] at hcase
      rw [hcase] at hst
      rcases hst with h | h <;> simp at h
    · rw [if_neg hxid] at hcase
      subst hcase
      have hxb : x2 ≠ b := fun he => hxid (he ▸ hbid)
      have hnc : x2.status ≠ BookingStatus.CANCELLED := by
        rcases hst with h | h <;> rw [h] <;> simp
      have hd : Disjoint x2.seats b.seats :=
        pairwise_seatDisjoint_forall hi.pairwise_disjoint hx hmem hxb hnc hbnc
      exact Finset.subset_sdiff.mpr ⟨hi.confirmed_booked x2 hx hst, hd⟩
  · refine updateBooking_pairwise hi.pairwise_disjoint ?_
    intro x hx y hy hr hx2 hy2
    by_cases hxid : x.id = bid
    · rw [if_pos hxid] at hx2
      simp at hx2
    · rw [if_neg hxid] at hx2
      by_cases hyid : y.id = bid
      · rw [if_pos hyid] at hy2
        simp at hy2
      · rw [if_neg hyid] at hy2
        have hd := hr hx2 hy2
        split_ifs <;> exact hd
  · refine updateBooking_pairwise hi.ids_nodup ?_
    intro x hx y hy hr
    split_ifs <;> exact hr
  · intro x2 hx2
    obtain ⟨x, hx, hcase⟩ := updateBooking_mem hx2
    have hid2 : x2.id = x.id := by
      split_ifs at hcase <;> rw [hcase]
    rw [hid2]
    exact hi.id_lt_next x hx

theorem seatInv_expire {s : EngineState} (hi : SeatInv s) (bid : Nat) :
    SeatInv (expireHold s bid).1 := by
  rcases hf : s.bookings.find? (fun x => x.id == bid) with _ | b
  · unfold expireHold
    rw [hf]
    exact hi
  · obtain ⟨hmem, hbid⟩ := find?_booking_eq_some hf
    unfold expireHold
    rw [hf]
    dsimp only
    by_cases hpend : b.status = BookingStatus.PENDING
    · rw [if_pos hpend]
      exact seatInv_cancelCore hi hmem hbid (by rw [hpend]; simp)
    · rw [if_neg hpend]
      exact hi

theorem seatInv_cancel {s : EngineState} (hi : SeatInv s) (bid : Nat) (now : Int)
    (byOperator : Bool) : SeatInv (cancelBooking s bid now byOperator).1 := by
  rcases hf : s.bookings.find? (fun x => x.id == bid) with _ | b
  · unfold cancelBooking
    rw [hf]
    exact hi
  · obtain ⟨hmem, hbid⟩ := find?_booking_eq_some hf
    unfold cancelBooking
    rw [hf]
    dsimp only
    rcases hst : b.status with _ | _ | _ | _
    · dsimp only
      split_ifs with hop
      · exact seatInv_cancelCore hi hmem hbid (by rw [hst]; simp)
      · exact hi
    · dsimp only
      split_ifs with hop
      · exact seatInv_cancelCore hi hmem hbid (by rw [hst]; simp)
      · exact hi
    · exact hi
    · exact hi

theorem seatInv_complete {s : EngineState} (hi : SeatInv s) (bid : Nat) (now : Int) :
    SeatInv (completeBooking s bid now).1 := by
  rcases hf : s.bookings.find? (fun x => x.id == bid) with _ | b
  · unfold completeBooking
    rw [hf]
    exact hi
  · obtain ⟨hmem, hbid⟩ := find?_booking_eq_some hf
    unfold completeBooking
    rw [hf]
    dsimp only
    split_ifs with hc
    · obtain ⟨hconf, -⟩ := hc
      refine ⟨hi.hb_disj, ?_, ?_, ?_, ?_, ?_⟩ <;> dsimp only
      · intro x2 hx2 hst
        obtain ⟨x, hx, hcase⟩ := updateBooking_mem hx2
        by_cases hxid : x.id = bid
        · rw [if_pos hxid] at hcase
          rw [hcase] at hst
          simp at hst
        · rw [if_neg hxid] at hcase
          subst hcase
          exact hi.pending_held x2 hx hst
      · intro x2 hx2 hst
        obtain ⟨x, hx, hcase⟩ := updateBooking_mem hx2
        by_cases hxid : x.id = bid
        · rw [if_pos hxid] at hcase
          have hxb : x = b := eq_of_mem_of_id_eq hi.ids_nodup hx hmem (hxid.trans hbid.symm)
          rw [hcase, hxb]
          exact hi.confirmed_booked b hmem (Or.inl hconf)
        · rw [if_neg hxid] at hcase
          subst hcase
          exact hi.confirmed_booked x2 hx hst
      · refine updateBooking_pairwise hi.pairwise_disjoint ?_
        intro x hx y hy hr hx2 hy2
        have hxnc : x.status ≠ BookingStatus.CANCELLED := by
          by_cases hxid : x.id = bid
          · have hxb : x = b := eq_of_mem_of_id_eq hi.ids_nodup hx hmem (hxid.trans hbid.symm)
            rw [hxb, hconf]
            simp
          · rw [if_neg hxid] at hx2
            exact hx2
        have hync : y.status ≠ BookingStatus.CANCELLED := by
          by_cases hyid : y.id = bid
          · have hyb : y = b := eq_of_mem_of_id_eq hi.ids_nodup hy hmem (hyid.trans hbid.symm)
            rw [hyb, hconf]
            simp
          · rw [if_neg hyid] at hy2
            exact hy2
        have hd := hr hxnc hync
        split_ifs <;> exact hd
      · refine updateBooking_pairwise hi.ids_nodup ?_
        intro x hx y hy hr
        split_ifs <;> exact hr
      · intro x2 hx2
        obtain ⟨x, hx, hcase⟩ := updateBooking_mem hx2
        have hid2 : x2.id = x.id := by
          split_ifs at hcase <;> rw [hcase]
        rw [hid2]
        exact hi.id_lt_next x hx
    · exact hi

theorem seatRelease_after_hold {inv : Inventory} {req : Finset Nat}
    (hfree : ∀ n ∈ req, seatState inv n = SeatState.FREE) :
    seatRelease { inv with held := inv.held ∪ req } req = inv := by
  have hh : Disjoint req inv.held := disjoint_held_of_all_free hfree
  have hb : Disjoint req inv.booked := disjoint_booked_of_all_free hfree
  unfold seatRelease
  dsimp only
  have h1 : (inv.held ∪ req) \ req = inv.held := by
    rw [Finset.union_sdiff_distrib, Finset.sdiff_self, Finset.union_empty]
    exact Finset.sdiff_eq_self_iff_disjoint.mpr hh.symm
  have h2 : inv.booked \ req = inv.booked :=
    Finset.sdiff_eq_self_iff_disjoint.mpr hb.symm
  rw [h1, h2]

theorem seatInv_create {s : EngineState} (hi : SeatInv s) (scheduleActive : Bool)
    (req : Finset Nat) (method : PaymentMethodForm) (charge : PayOutcome) :
    SeatInv (createBooking s scheduleActive req method charge).1 := by
  unfold createBooking
  split_ifs with hact
  · exact hi
  · rcases hres : reserve s req with ⟨s1, r⟩
    have hs1 : SeatInv s1 := by
      have h := seatInv_reserve hi req
      rwa [hres] at h
    cases r with
    | error e => exact hs1
    | ok b =>
        cases method with
        | pay_later => exact seatInv_confirm hs1 b.id PaymentStatus.UNPAID
        | mobile_money =>
            cases charge with
            | Paid => exact seatInv_confirm hs1 b.id PaymentStatus.PAID
            | Declined =>
                obtain ⟨hv, hfree, hbeq, hs1eq⟩ := reserve_ok_inv hres
                have hrec : ({ s1 with
                    inv := seatRelease s1.inv b.seats
                    bookings := s.bookings
                    nextId := s.nextId } : EngineState) = s := by
                  rw [hs1eq, hbeq]
                  dsimp only
                  rw [seatRelease_after_hold hfree]
                dsimp only
                rw [hrec]
                exact hi
        | card =>
            cases charge with
            | Paid => exact seatInv_confirm hs1 b.id PaymentStatus.PAID
            | Declined =>
                obtain ⟨hv, hfree, hbeq, hs1eq⟩ := reserve_ok_inv hres
                have hrec : ({ s1 with
                    inv := seatRelease s1.inv b.seats
                    bookings := s.bookings
                    nextId := s.nextId } : EngineState) = s := by
                  rw [hs1eq, hbeq]
                  dsimp only
                  rw [seatRelease_after_hold hfree]
                dsimp only
                rw [hrec]
                exact hi

theorem seatInv_step {s t : EngineState} (hi : SeatInv s) (hstep : Step s t) : SeatInv t := by
  cases hstep with
  | reserveStep req => exact seatInv_reserve hi req
  | confirmStep bid ps => exact seatInv_confirm hi bid ps
  | expireStep bid => exact seatInv_expire hi bid
  | cancelStep bid now byOperator => exact seatInv_cancel hi bid now byOperator
  | completeStep bid now => exact seatInv_complete hi bid now
  | createStep scheduleActive req method charge =>
      exact seatInv_create hi scheduleActive req method charge

theorem seatInv_init (totalSeats : Nat) (departure arrival : Int) :
    SeatInv (initState totalSeats departure arrival) := by
  refine ⟨?_, ?_, ?_, ?_, ?_, ?_⟩ <;> simp [initState]

theorem seatInv_reachable {s : EngineState} (h : Reachable s) : SeatInv s := by
  induction h with
  | init totalSeats departure arrival => exact seatInv_init totalSeats departure arrival
  | step _ hstep ih => exact seatInv_step ih hstep

/-- C1: In every engine state reachable by any sequence of operations, the
seat sets of the non-cancelled (`PENDING`, `CONFIRMED` or `COMPLETED`)
Bookings of a Schedule are pairwise disjoint — no seat belongs to two
non-cancelled Bookings, and since every granted Reservation is consumed by
exactly one Booking, no two simultaneously live grants overlap in seats. -/
theorem no_overbooking_reachable (s : EngineState) (h : Reachable s) :
    s.bookings.Pairwise (fun a c =>
      a.status ≠ BookingStatus.CANCELLED → c.status ≠ BookingStatus.CANCELLED →
      Disjoint a.seats c.seats) :=
  (seatInv_reachable h).pairwise_disjoint

/-- C1 witness: the no-overbooking theorem applied to the concrete state
reached by booking seats `{1, 2}` (mobile money, payment succeeds) and then
seat `{3}` on a fresh 4-seat schedule. -/
theorem no_overbooking_reachable_witness :
    ((createBooking
        (createBooking (initState 4 0 0) true ({1, 2} : Finset Nat)
          PaymentMethodForm.mobile_money PayOutcome.Paid).1
        true ({3} : Finset Nat)
        PaymentMethodForm.pay_later PayOutcome.Paid).1).bookings.Pairwise (fun a c =>
      a.status ≠ BookingStatus.CANCELLED → c.status ≠ BookingStatus.CANCELLED →
      Disjoint a.seats c.seats) :=
  no_overbooking_reachable _
    (Reachable.step
      (Reachable.step (Reachable.init 4 0 0)
        (Step.createStep true {1, 2} PaymentMethodForm.mobile_money PayOutcome.Paid))
      (Step.createStep true {3} PaymentMethodForm.pay_later PayOutcome.Paid))

/-- C2: `tryHold` is all-or-nothing — it grants exactly when every requested
seat is `FREE`; on grant every requested seat becomes `HELD` and no other
seat changes; on rejection the inventory is unchanged and the reported
conflicting seats are exactly the non-`FREE` requested seats (a non-empty
set); and through `reserve`, a rejection reaches the caller as the
retryable `SeatsUnavailable(conflictingSeats)` with no state change. -/
theorem tryHold_all_or_nothing (inv : Inventory) (req : Finset Nat) :
    ((tryHold inv req).2 = HoldResult.granted ↔
      ∀ n ∈ req, seatState inv n = SeatState.FREE) ∧
    ((tryHold inv req).2 = HoldResult.granted →
      (∀ n ∈ req, seatState (tryHold inv req).1 n = SeatState.HELD) ∧
      ∀ n, n ∉ req → seatState (tryHold inv req).1 n = seatState inv n) ∧
    (∀ conf, (tryHold inv req).2 = HoldResult.rejected conf →
      (tryHold inv req).1 = inv ∧
      conf = conflictingSeats inv req ∧ conf ≠ ∅ ∧
      ∀ n ∈ conf, seatState inv n ≠ SeatState.FREE) ∧
    (∀ (s : EngineState) (conf : Finset Nat), s.inv = inv →
      validSeatRequest inv req = true →
      (tryHold inv req).2 = HoldResult.rejected conf →
      reserve s req = (s, Except.error (BookingError.SeatsUnavailable conf))) := by
  refine ⟨tryHold_granted_iff, ?_, ?_, ?_⟩
  · intro hg
    have hfree := tryHold_granted_iff.mp hg
    rw [tryHold_of_all_free hfree]
    constructor
    · intro n hn
      have hf := seatState_eq_FREE.mp (hfree n hn)
      show seatState { inv with held := inv.held ∪ req } n = SeatState.HELD
      unfold seatState
      dsimp only
      rw [if_neg hf.1, if_pos (Finset.mem_union_right _ hn)]
    · intro n hn
      show seatState { inv with held := inv.held ∪ req } n = seatState inv n
      unfold seatState
      dsimp only
      by_cases hb : n ∈ inv.booked
      · rw [if_pos hb, if_pos hb]
      · rw [if_neg hb, if_neg hb]
        by_cases hh : n ∈ inv.held
        · rw [if_pos (Finset.mem_union_left _ hh), if_pos hh]
        · rw [if_neg (fun hu => (Finset.mem_union.mp hu).elim hh hn), if_neg hh]
  · intro conf hrej
    have hc : conflictingSeats inv req ≠ ∅ := by
      intro he
      rw [tryHold_of_all_free (conflictingSeats_eq_empty.mp he)] at hrej
      exact HoldResult.noConfusion hrej
    have heq := tryHold_of_conflict hc
    rw [heq] at hrej
    have hconf : conf = conflictingSeats inv req := (HoldResult.rejected.inj hrej).symm
    refine ⟨by rw [heq], hconf, by rw [hconf]; exact hc, ?_⟩
    intro n hn
    rw [hconf] at hn
    exact (Finset.mem_filter.mp hn).2
  · intro s conf hsinv hv hrej
    have hc : conflictingSeats inv req ≠ ∅ := by
      intro he
      rw [tryHold_of_all_free (conflictingSeats_eq_empty.mp he)] at hrej
      exact HoldResult.noConfusion hrej
    rw [tryHold_of_conflict hc] at hrej
    have hconf : conf = conflictingSeats inv req := (HoldResult.rejected.inj hrej).symm
    subst hsinv
    rw [reserve_of_conflict hv hc, hconf]

/-- C5: If the payment capability reports `Declined` during `createBooking`
(mobile money or card, on a valid request whose seats were granted), the
operation returns `PaymentFailed` and the state is exactly the state before
the call: the availability snapshot afterwards shows every requested seat
`FREE`, and the booking list is unchanged — no Booking, `PENDING` or
otherwise, exists for the request. -/
theorem payment_failure_leaves_no_orphan_hold (s : EngineState) (req : Finset Nat)
    (method : PaymentMethodForm) (hm : method ≠ PaymentMethodForm.pay_later)
    (hv : validSeatRequest s.inv req = true)
    (hfree : ∀ n ∈ req, seatState s.inv n = SeatState.FREE) :
    createBooking s true req method PayOutcome.Declined
      = (s, Except.error BookingError.PaymentFailed) ∧
    (∀ n ∈ req,
      n ∈ (snapshotAvailability
        (createBooking s true req method PayOutcome.Declined).1.inv).freeSeats) ∧
    (createBooking s true req method PayOutcome.Declined).1.bookings = s.bookings := by
  have hkey : createBooking s true req method PayOutcome.Declined
      = (s, Except.error BookingError.PaymentFailed) := by
    unfold createBooking
    rw [if_neg (by simp)]
    rw [reserve_of_valid_free hv hfree]
    cases method with
    | pay_later => exact absurd rfl hm
    | mobile_money =>
        dsimp only
        rw [Prod.mk.injEq]
        refine ⟨?_, rfl⟩
        rw [seatRelease_after_hold hfree]
    | card =>
        dsimp only
        rw [Prod.mk.injEq]
        refine ⟨?_, rfl⟩
        rw [seatRelease_after_hold hfree]
  refine ⟨hkey, ?_, by rw [hkey]⟩
  intro n hn
  rw [hkey]
  unfold snapshotAvailability
  dsimp only
  refine Finset.mem_filter.mpr ⟨?_, hfree n hn⟩
  have hsub : req ⊆ Finset.Icc 1 s.inv.totalSeats := by
    unfold validSeatRequest at hv
    simp only [Bool.and_eq_true, decide_eq_true_eq] at hv
    exact hv.2
  exact hsub hn

/-- C5 witness: the payment-failure theorem applied to a fresh 4-seat
schedule with seats `{1, 2}` requested via mobile money. -/
theorem payment_failure_leaves_no_orphan_hold_witness :
    createBooking (initState 4 0 0) true ({1, 2} : Finset Nat)
        PaymentMethodForm.mobile_money PayOutcome.Declined
      = (initState 4 0 0, Except.error BookingError.PaymentFailed) :=
  (payment_failure_leaves_no_orphan_hold (initState 4 0 0) {1, 2}
    PaymentMethodForm.mobile_money (by decide) (by decide) (by decide)).1

/-- C3: The 24-hour cancellation cutoff is a hard boundary.  For a
`CONFIRMED` Booking the client-side `isCancellable` predicate holds exactly
when `departure − now > 24h` (in milliseconds); and a passenger cancellation
of a `CONFIRMED` engine Booking succeeds — the booking becomes `CANCELLED`
and its seats are released — exactly when `departure − now > 24h`, while at
`departure − now ≤ 24h` it fails with `CancellationWindowClosed` and the
state is unchanged. -/
theorem cancellation_window_hard_boundary (now : Int) (bk : Booking)
    (s : EngineState) (bid : Nat) (b : EngineBooking)
    (hbk : bk.status = BookingStatus.CONFIRMED)
    (hf : s.bookings.find? (fun x => x.id == bid) = some b)
    (hb : b.status = BookingStatus.CONFIRMED) :
    (isCancellable now bk = true ↔ 24 * msPerHour < bk.departureTime - now) ∧
    (24 * msPerHour < s.departure - now →
      (cancelBooking s bid now false).2 = Except.ok () ∧
      (∀ x ∈ (cancelBooking s bid now false).1.bookings,
        x.id = bid → x.status = BookingStatus.CANCELLED) ∧
      (∀ n ∈ b.seats,
        n ∉ (cancelBooking s bid now false).1.inv.held ∧
        n ∉ (cancelBooking s bid now false).1.inv.booked)) ∧
    (s.departure - now ≤ 24 * msPerHour →
      cancelBooking s bid now false
        = (s, Except.error BookingError.CancellationWindowClosed)) := by
  refine ⟨isCancellable_confirmed_iff now bk hbk, ?_, ?_⟩
  · intro hwin
    have heq : cancelBooking s bid now false =
        ({ s with
            inv := seatRelease s.inv b.seats
            bookings := updateBooking bid
              (fun x => { x with status := BookingStatus.CANCELLED }) s.bookings },
         Except.ok ()) := by
      unfold cancelBooking
      rw [hf]
      dsimp only
      rw [hb]
      dsimp only
      rw [if_pos (Or.inr hwin)]
    rw [heq]
    refine ⟨rfl, ?_, ?_⟩
    · intro x hx hxid
      obtain ⟨x0, hx0, hcase⟩ := updateBooking_mem hx
      by_cases h0 : x0.id = bid
      · rw [if_pos h0] at hcase
        rw [hcase]
      · rw [if_neg h0] at hcase
        subst hcase
        exact absurd hxid h0
    · intro n hn
      constructor
      · exact fun hmem => (Finset.mem_sdiff.mp hmem).2 hn
      · exact fun hmem => (Finset.mem_sdiff.mp hmem).2 hn
  · intro hle
    unfold cancelBooking
    rw [hf]
    dsimp only
    rw [hb]
    dsimp only
    rw [if_neg ?_]
    rintro (hop | hwin)
    · exact Bool.noConfusion hop
    · exact absurd hwin (not_lt.mpr hle)

/-- C3 witness: the boundary theorem applied at `now = 0` to a booking and
an engine state departing at `30 * msPerHour` — the window is open, so the
client predicate holds and the engine cancellation succeeds. -/
theorem cancellation_window_hard_boundary_witness :
    isCancellable 0 (sampleBooking BookingStatus.CONFIRMED (30 * msPerHour) 0) = true ∧
    (cancelBooking demoConfirmedState 0 0 false).2 = Except.ok () := by
  have h := cancellation_window_hard_boundary 0
    (sampleBooking BookingStatus.CONFIRMED (30 * msPerHour) 0)
    demoConfirmedState 0
    { id := 0, seats := {1, 2}, status := BookingStatus.CONFIRMED
      paymentStatus := PaymentStatus.PAID }
    rfl (by decide) rfl
  refine ⟨h.1.mpr ?_, (h.2.1 ?_).1⟩
  · norm_num [sampleBooking, msPerHour]
  · norm_num [demoConfirmedState, msPerHour]

/-- C6: Every booking the form's `onSubmit` constructs has status
`CONFIRMED`, and its payment fields are determined by the payment method:
mobile money yields payment status `PAID` with method `mobile_money`, card
yields `PAID` with method `credit_card`, and pay-later yields `UNPAID` with
method `pay_later`. -/
theorem booking_confirmed_payment_by_method (props : BookingFormProps)
    (data : BookingFormData) (userId : Option String) (selectedSeats : List Nat)
    (nowMs rand6 : Nat) :
    (mockBooking props data userId selectedSeats nowMs rand6).status
      = BookingStatus.CONFIRMED ∧
    (data.paymentMethod = PaymentMethodForm.mobile_money →
      (mockBooking props data userId selectedSeats nowMs rand6).paymentStatus
          = PaymentStatus.PAID ∧
      (mockBooking props data userId selectedSeats nowMs rand6).paymentMethod
          = PaymentMethod.mobile_money) ∧
    (data.paymentMethod = PaymentMethodForm.card →
      (mockBooking props data userId selectedSeats nowMs rand6).paymentStatus
          = PaymentStatus.PAID ∧
      (mockBooking props data userId selectedSeats nowMs rand6).paymentMethod
          = PaymentMethod.credit_card) ∧
    (data.paymentMethod = PaymentMethodForm.pay_later →
      (mockBooking props data userId selectedSeats nowMs rand6).paymentStatus
          = PaymentStatus.UNPAID ∧
      (mockBooking props data userId selectedSeats nowMs rand6).paymentMethod
          = PaymentMethod.pay_later) := by
  refine ⟨rfl, ?_, ?_, ?_⟩ <;> intro h <;> simp [mockBooking, h]

theorem seatSelection_nodup_and_le {passengers : Nat} {l : List Nat}
    (h : SeatSelection passengers l) : l.Nodup ∧ l.length ≤ passengers := by
  induction h with
  | nil => exact ⟨List.nodup_nil, Nat.zero_le passengers⟩
  | toggle selectedSeats seatNumber hsel ih =>
      obtain ⟨hnd, hle⟩ := ih
      unfold toggleSeatSelection
      split_ifs with hmem hlen
      · exact ⟨hnd.filter _, le_trans (List.length_filter_le _ _) hle⟩
      · refine ⟨?_, ?_⟩
        · simp [List.nodup_append, hnd, hmem]
        · rw [List.length_append]
          exact hlen
      · exact ⟨hnd, hle⟩

/-- C7: A booking the form's `onSubmit` constructs carries a duplicate-free
seat list, and its total amount is the seat price times the number of seats:
the seat list is only built by `toggleSeatSelection` (so it has at most
`passengers` distinct seats) and submission requires at least `passengers`
selected seats, so `totalAmount = price * passengers = price * seatCount`,
in exact integer arithmetic. -/
theorem totalAmount_eq_price_times_seats (props : BookingFormProps)
    (data : BookingFormData) (userId : Option String) (selectedSeats : List Nat)
    (nowMs rand6 : Nat)
    (hsel : SeatSelection props.passengers selectedSeats)
    (hsubmit : ¬ selectedSeats.length < props.passengers) :
    (mockBooking props data userId selectedSeats nowMs rand6).seatNumbers.Nodup ∧
    (mockBooking props data userId selectedSeats nowMs rand6).totalAmount =
      props.price *
        (mockBooking props data userId selectedSeats nowMs rand6).seatNumbers.length := by
  obtain ⟨hnd, hle⟩ := seatSelection_nodup_and_le hsel
  have hlen : selectedSeats.length = props.passengers := le_antisymm hle (not_lt.mp hsubmit)
  refine ⟨hnd, ?_⟩
  show totalPrice props = props.price * selectedSeats.length
  rw [hlen]
  rfl

/-- C7 witness: on a 2-passenger form where seats 5 and 7 were toggled in,
the constructed booking's amount is the price times its seat count. -/
theorem totalAmount_eq_price_times_seats_witness :
    (mockBooking demoProps (demoFormData PaymentMethodForm.card) none [5, 7]
        1000 123456).seatNumbers.Nodup ∧
    (mockBooking demoProps (demoFormData PaymentMethodForm.card) none [5, 7]
        1000 123456).totalAmount =
      demoProps.price *
        (mockBooking demoProps (demoFormData PaymentMethodForm.card) none [5, 7]
          1000 123456).seatNumbers.length :=
  totalAmount_eq_price_times_seats demoProps (demoFormData PaymentMethodForm.card)
    none [5, 7] 1000 123456
    (SeatSelection.toggle [5] 7 (SeatSelection.toggle [] 5 SeatSelection.nil))
    (by decide)

/-- C8: The schedule form's validation enforces `arrival > departure`: any
input that passes `scheduleFormSchema` has both timestamps parse to values
with the departure strictly below the arrival, and any input whose parsed
arrival is not strictly after its parsed departure fails validation — so no
accepted Schedule violates the invariant. -/
theorem schedule_validation_requires_arrival_after_departure
    (parse : String → Option Int) (f : ScheduleFormInput) :
    (scheduleFormValid parse f = true →
      ∃ d a, parse f.departureTime = some d ∧ parse f.arrivalTime = some a ∧ d < a) ∧
    (∀ d a, parse f.departureTime = some d → parse f.arrivalTime = some a →
      a ≤ d → scheduleFormValid parse f = false) := by
  constructor
  · intro hv
    unfold scheduleFormValid at hv
    simp only [Bool.and_eq_true, decide_eq_true_eq] at hv
    obtain ⟨-, hmatch⟩ := hv
    rcases hd : parse f.departureTime with _ | d
    · rw [hd] at hmatch
      exact absurd hmatch (by simp)
    · rcases ha : parse f.arrivalTime with _ | a
      · rw [hd, ha] at hmatch
        exact absurd hmatch (by simp)
      · rw [hd, ha] at hmatch
        simp only [decide_eq_true_eq] at hmatch
        exact ⟨d, a, rfl, rfl, hmatch⟩
  · intro d a hd ha hle
    unfold scheduleFormValid
    rw [hd, ha]
    dsimp only
    have hfalse : decide (d < a) = false := decide_eq_false (not_lt.mpr hle)
    rw [hfalse, Bool.and_false]

/-- C9 counterexample: the claim "for any two distinct Bookings their
references differ" fails on the source's reference generator — two bookings
created at different times (hence distinct) whose random draws coincide get
the same `bookingNumber`. -/
theorem booking_reference_collision :
    mockBooking demoProps (demoFormData PaymentMethodForm.card) none [5] 1000 123456 ≠
      mockBooking demoProps (demoFormData PaymentMethodForm.card) none [7] 2000 123456 ∧
    (mockBooking demoProps (demoFormData PaymentMethodForm.card) none [5]
        1000 123456).bookingNumber =
      (mockBooking demoProps (demoFormData PaymentMethodForm.card) none [7]
        2000 123456).bookingNumber := by
  constructor
  · intro h
    have hs := congrArg Booking.seatNumbers h
    simp [mockBooking] at hs
  · rfl

/-- C9 amended: every constructed Booking carries a user-facing
`bookingNumber` of the form `BK` followed by a 6-digit random number, which
is distinct from the booking's internal identifier (`booking-` followed by
the creation timestamp); but the reference is not guaranteed unique — two
distinct Bookings can share one (see the collision counterexample). -/
theorem booking_reference_format_distinct_from_id (props : BookingFormProps)
    (data : BookingFormData) (userId : Option String) (selectedSeats : List Nat)
    (nowMs rand6 : Nat) :
    (mockBooking props data userId selectedSeats nowMs rand6).bookingNumber
      = "BK" ++ toString rand6 ∧
    (mockBooking props data userId selectedSeats nowMs rand6).id
      = "booking-" ++ toString nowMs ∧
    (mockBooking props data userId selectedSeats nowMs rand6).bookingNumber ≠
      (mockBooking props data userId selectedSeats nowMs rand6).id := by
  refine ⟨rfl, rfl, ?_⟩
  intro h
  have hd : ("BK" ++ toString rand6).data = ("booking-" ++ toString nowMs).data :=
    congrArg String.data h
  rw [String.data_append, String.data_append] at hd
  have hB : "BK".data = ['B', 'K'] := rfl
  have hbk : "booking-".data = ['b', 'o', 'o', 'k', 'i', 'n', 'g', '-'] := rfl
  rw [hB, hbk] at hd
  injection hd with h1 _
  exact absurd h1 (by decide)

/-- C10: A successful `cancelBooking` state update touches only the
bookings whose id matches, and of those changes only the status field (to
`CANCELLED`): the list keeps its length and order, every booking with a
different id is returned unchanged, every other field of a matched booking
is preserved, and if no booking carries the id the list is unchanged. -/
theorem cancelBookingUpdate_frame (bookingId : String) (bookings : List Booking) :
    (cancelBookingUpdate bookingId bookings).length = bookings.length ∧
    (∀ (i : Nat) (b : Booking), bookings[i]? = some b →
      (b.id ≠ bookingId → (cancelBookingUpdate bookingId bookings)[i]? = some b) ∧
      (b.id = bookingId → ∃ b2,
        (cancelBookingUpdate bookingId bookings)[i]? = some b2 ∧
        b2.status = BookingStatus.CANCELLED ∧
        b2.id = b.id ∧ b2.bookingNumber = b.bookingNumber ∧ b2.userId = b.userId ∧
        b2.passengerName = b.passengerName ∧ b2.contactEmail = b.contactEmail ∧
        b2.contactPhone = b.contactPhone ∧ b2.scheduleId = b.scheduleId ∧
        b2.route = b.route ∧ b2.bus = b.bus ∧ b2.departureDate = b.departureDate ∧
        b2.departureTime = b.departureTime ∧ b2.arrivalTime = b.arrivalTime ∧
        b2.seatNumbers = b.seatNumbers ∧ b2.totalAmount = b.totalAmount ∧
        b2.paymentMethod = b.paymentMethod ∧ b2.paymentStatus = b.paymentStatus ∧
        b2.createdAt = b.createdAt)) ∧
    ((∀ b ∈ bookings, b.id ≠ bookingId) →
      cancelBookingUpdate bookingId bookings = bookings) := by
  refine ⟨List.length_map _ _, ?_, ?_⟩
  · intro i b hb
    have hmap : (cancelBookingUpdate bookingId bookings)[i]? =
        some (if b.id = bookingId then { b with status := BookingStatus.CANCELLED }
              else b) := by
      unfold cancelBookingUpdate
      rw [List.getElem?_map, hb]
      rfl
    constructor
    · intro hne
      rw [hmap, if_neg hne]
    · intro heq
      refine ⟨{ b with status := BookingStatus.CANCELLED }, ?_, ?_⟩
      · rw [hmap, if_pos heq]
      · exact ⟨rfl, rfl, rfl, rfl, rfl, rfl, rfl, rfl, rfl, rfl, rfl, rfl, rfl, rfl,
          rfl, rfl, rfl, rfl⟩
  · intro hall
    unfold cancelBookingUpdate
    induction bookings with
    | nil => rfl
    | cons hd tl ih =>
        rw [List.map_cons,
          if_neg (hall hd (List.mem_cons_self hd tl)),
          ih (fun b hb => hall b (List.mem_cons_of_mem hd hb))]

end BusB
